import Mathlib

/-!
Shallow embedding of the claude-keepalive-status-toolbar decision core.

The JavaScript sources are translated as follows:
* JS numbers are modelled as `JsNumber` (a rational, or one of the
  non-finite values `nan`, `inf`, `negInf`); timestamps and config numbers
  that the code only ever produces as finite values are plain rationals.
* JS objects are Lean structures; an absent or wrongly-typed field is
  `Option.none`.  JS object key iteration order is modelled by insertion
  ordered association lists.
* External I/O (keychain, HTTP fetch, cache files, process spawns) is an
  explicit environment record passed to the embedded function; each
  fallible platform call is a field of that record.
-/

namespace ClaudeKeepalive

/-- A JavaScript number: either a finite rational or one of the special
floating-point values.  `typeof x === 'number'` corresponds to having a
`JsNumber` at all (fields that may be absent or non-numeric are
`Option JsNumber`). -/
inductive JsNumber where
  | nan
  | inf
  | negInf
  | finite (q : ℚ)
deriving DecidableEq, Repr

/-- `Number.isFinite` on a JS number. -/
def JsNumber.isFinite : JsNumber → Bool
  | .finite _ => true
  | _ => false

/-- The JS comparison `x < c` for a finite rational bound `c`
(`NaN < c` and `Infinity < c` are false, `-Infinity < c` is true). -/
def JsNumber.ltNum : JsNumber → ℚ → Bool
  | .nan, _ => false
  | .inf, _ => false
  | .negInf, _ => true
  | .finite q, c => decide (q < c)

/-- One rate-limit window object as returned by the usage endpoint
(`{ utilization, resets_at }`); only `utilization` is consulted by the
decision code.  `utilization = none` models an absent or non-numeric
field. -/
structure LimitWindow where
  utilization : Option JsNumber := none
deriving DecidableEq, Repr

/-- The value a JS boolean-ish expression evaluates to: `limit && ...`
returns `limit` itself (here: `null`) when `limit` is null, and a real
boolean otherwise. -/
inductive JsBoolish where
  | null
  | bool (b : Bool)
deriving DecidableEq, Repr

/-- JS truthiness of a `JsBoolish` value. -/
def JsBoolish.truthy : JsBoolish → Bool
  | .null => false
  | .bool b => b

/-- Embeds `limitOk` from `active-session-core.js` / `part_001`:
`limit && typeof limit.utilization === 'number' &&
Number.isFinite(limit.utilization) && limit.utilization < 100`.
The argument is `none` for `null`/`undefined`; a present object with an
absent or non-numeric `utilization` field is `some ⟨none⟩`. -/
def limitOk : Option LimitWindow → JsBoolish
  | none => .null
  | some w =>
    match w.utilization with
    | none => .bool false
    | some u => .bool (u.isFinite && u.ltNum 100)

/-- Embeds `clampDelta` from `usage-history.js`:
returns 0 when `current` is not a finite number, `current` when
`previous` is not a finite number, and otherwise the difference clamped
so that a counter reset (current < previous) yields `current`. -/
def clampDelta (current previous : Option JsNumber) : ℚ :=
  match current with
  | some (.finite c) =>
    match previous with
    | some (.finite p) => if c - p < 0 then c else c - p
    | _ => c
  | _ => 0

/-! ### Pricing table and cost aggregation (`usage-history.js`) -/

/-- One pricing-table entry.  A field is `none` when the JSON object does
not carry it as a number (`typeof x === 'number'` fails). -/
structure ModelRates where
  input : Option ℚ := none
  baseInput : Option ℚ := none
  output : Option ℚ := none
  cacheRead : Option ℚ := none
  cacheWrite : Option ℚ := none
  cacheWrite5m : Option ℚ := none
  cacheWrite1h : Option ℚ := none
deriving DecidableEq, Repr

/-- The `cache` section of the pricing file. -/
structure CacheConfig where
  readMultiplier : Option ℚ := none
  writeMultiplier5m : Option ℚ := none
  writeMultiplier1h : Option ℚ := none
  writeMode : Option String := none
deriving DecidableEq, Repr

/-- The pricing table: `models` is the JSON object in insertion order
(JS `Object.entries` iterates string keys in that order). -/
structure Pricing where
  models : List (String × ModelRates) := []
  cache : Option CacheConfig := none
deriving DecidableEq, Repr

/-- JS `a < b` on strings: lexicographic comparison of the code-unit
sequences (date keys here are ASCII, so code units and characters
coincide). -/
def charListLt : List Char → List Char → Bool
  | [], [] => false
  | [], _ :: _ => true
  | _ :: _, [] => false
  | a :: as, b :: bs => if a < b then true else if b < a then false else charListLt as bs

/-- JS string comparison `a < b` lifted to Lean strings. -/
def jsStrLt (a b : String) : Bool :=
  charListLt a.data b.data

/-- JS object property read `obj[key]` over an insertion-ordered map. -/
def lookupKey {α : Type} : List (String × α) → String → Option α
  | [], _ => none
  | e :: rest, key => if e.1 == key then some e.2 else lookupKey rest key

/-- JS `key.endsWith('*')` (strings here are ASCII model keys, so code
units and characters coincide). -/
def endsWithStar (s : String) : Bool :=
  s.data.getLast? == some '*'

/-- JS `key.slice(0, -1)`: the key without its final character. -/
def dropLastChar (s : String) : String :=
  ⟨s.data.dropLast⟩

/-- JS `name.startsWith(p)` on ASCII strings. -/
def strStartsWith (s p : String) : Bool :=
  s.data.take p.data.length == p.data

/-- Embeds `resolvePricing` from `usage-history.js`: exact model-name
lookup first, else the first entry whose key ends in `*` and whose
key-minus-star the model name starts with. -/
def resolvePricing (modelName : String) (pricing : Option Pricing) : Option ModelRates :=
  match pricing with
  | none => none
  | some p =>
    match lookupKey p.models modelName with
    | some rates => some rates
    | none =>
      let wildcards := p.models.filter (fun e => endsWithStar e.1)
      match wildcards.find? (fun e => strStartsWith modelName (dropLastChar e.1)) with
      | some e => some e.2
      | none => none

/-- Embeds `getCacheReadRate`: an explicit per-model `cacheRead` rate
wins, else `baseInput` times the table's `readMultiplier` (default 0.1). -/
def getCacheReadRate (pricing : Option Pricing) (baseInput : ℚ) (modelRates : ModelRates) : ℚ :=
  match modelRates.cacheRead with
  | some r => r
  | none =>
    let multiplier := ((pricing.bind (·.cache)).bind (·.readMultiplier)).getD (1 / 10)
    baseInput * multiplier

/-- JS `s.toLowerCase()` on ASCII strings. -/
def jsToLowerCase (s : String) : String :=
  ⟨s.data.map Char.toLower⟩

/-- The effective cache-write mode string:
`(process.env.CACHE_WRITE_MODE || pricing?.cache?.writeMode || '5m').toLowerCase()`.
`envMode = none` models an unset (or empty, hence falsy) environment
variable. -/
def cacheWriteMode (envMode : Option String) (pricing : Option Pricing) : String :=
  jsToLowerCase
    (match envMode with
     | some m => m
     | none => (((pricing.bind (·.cache)).bind (·.writeMode)).getD "5m"))

/-- Embeds `getCacheWriteRate`: explicit `cacheWrite` wins; else a
mode-specific per-model override (`cacheWrite5m`/`cacheWrite1h`) when one
exists for the selected mode; else `baseInput` times the mode's
multiplier (defaults 1.25 for `5m`, 2 for `1h`). -/
def getCacheWriteRate (envMode : Option String) (pricing : Option Pricing)
    (baseInput : ℚ) (modelRates : ModelRates) : ℚ :=
  match modelRates.cacheWrite with
  | some r => r
  | none =>
    let mode := cacheWriteMode envMode pricing
    let viaOverride : Option ℚ :=
      if modelRates.cacheWrite5m.isSome || modelRates.cacheWrite1h.isSome then
        if mode == "1h" && modelRates.cacheWrite1h.isSome then modelRates.cacheWrite1h
        else if mode == "5m" && modelRates.cacheWrite5m.isSome then modelRates.cacheWrite5m
        else none
      else none
    match viaOverride with
    | some r => r
    | none =>
      let multiplier :=
        if mode == "1h" then (((pricing.bind (·.cache)).bind (·.writeMultiplier1h)).getD 2)
        else (((pricing.bind (·.cache)).bind (·.writeMultiplier5m)).getD (5 / 4))
      baseInput * multiplier

/-- Per-model token deltas fed into `computeCost` (all four counters). -/
structure TokenDelta where
  input : ℚ := 0
  output : ℚ := 0
  cacheRead : ℚ := 0
  cacheWrite : ℚ := 0
deriving DecidableEq, Repr

/-- The cost of one model's delta at resolved rates, per the formula in
`computeCost`: `(count / 1,000,000) × rate` summed over the four token
kinds, with `baseInput = rates.input ?? rates.baseInput ?? 0` and
`outputRate = rates.output ?? 0`. -/
def modelCost (envMode : Option String) (pricing : Option Pricing)
    (rates : ModelRates) (delta : TokenDelta) : ℚ :=
  let baseInput := (rates.input.or rates.baseInput).getD 0
  let outputRate := rates.output.getD 0
  let cacheReadRate := getCacheReadRate pricing baseInput rates
  let cacheWriteRate := getCacheWriteRate envMode pricing baseInput rates
  delta.input / 1000000 * baseInput + delta.output / 1000000 * outputRate +
    delta.cacheRead / 1000000 * cacheReadRate + delta.cacheWrite / 1000000 * cacheWriteRate

/-- Result of `computeCost`: running total, per-model cost entries in
visit order, and the `missingPricing` list of unresolvable model names. -/
structure CostResult where
  total : ℚ := 0
  perModel : List (String × ℚ) := []
  missing : List String := []
deriving DecidableEq, Repr

/-- Embeds the body of `computeCost`'s `for` loop folded over the
per-model delta entries. -/
def computeCostStep (envMode : Option String) (pricing : Option Pricing)
    (acc : CostResult) (entry : String × TokenDelta) : CostResult :=
  match resolvePricing entry.1 pricing with
  | none => { acc with missing := acc.missing ++ [entry.1] }
  | some rates =>
    let cost := modelCost envMode pricing rates entry.2
    { total := acc.total + cost, perModel := acc.perModel ++ [(entry.1, cost)],
      missing := acc.missing }

/-- Embeds `computeCost` from `usage-history.js`: models with no pricing
match are pushed onto `missing` and contribute no cost term. -/
def computeCost (envMode : Option String) (deltaByModel : List (String × TokenDelta))
    (pricing : Option Pricing) : CostResult :=
  deltaByModel.foldl (computeCostStep envMode pricing) {}

/-! ### Usage-history daily merge (`updateUsageHistory`, ccusage branch) -/

/-- One bucket of the persisted `history.daily` map.  Fields the merge
loop does not touch (`models`) are carried through the object spread
`{...existing, ...}`. -/
structure DayBucket where
  costUSD : Option ℚ := none
  source : Option String := none
  updatedAt : Option String := none
  models : Option (List (String × TokenDelta)) := none
deriving DecidableEq, Repr

/-- One row of the ccusage daily output as consumed by the merge loop. -/
structure DailyRow where
  date : String
  costUSD : ℚ
deriving DecidableEq, Repr

/-- JS object property assignment `obj[key] = v`: replaces the value of
an existing key in place, else appends the key at the end. -/
def setKey {α : Type} (entries : List (String × α)) (key : String) (v : α) :
    List (String × α) :=
  if (lookupKey entries key).isSome then
    entries.map (fun e => if e.1 == key then (key, v) else e)
  else entries ++ [(key, v)]

/-- Embeds the body of the daily-row merge loop of `updateUsageHistory`
(`usage-history.js`): a row for a past day (`row.date < todayKey` by
string comparison) whose bucket already exists is skipped; otherwise the
bucket is overwritten with
`{...existing, costUSD: row.costUSD, source: 'ccusage', updatedAt: nowIso}`. -/
def applyDailyRow (todayKey nowIso : String) (acc : List (String × DayBucket))
    (row : DailyRow) : List (String × DayBucket) :=
  let isPastDay := jsStrLt row.date todayKey
  let existing := lookupKey acc row.date
  if isPastDay && existing.isSome then acc
  else
    let base := existing.getD {}
    setKey acc row.date
      { base with costUSD := some row.costUSD, source := some "ccusage",
                  updatedAt := some nowIso }

/-- The daily-row merge loop of `updateUsageHistory` folded over the
ccusage rows. -/
def applyCcusageDailyRows (daily : List (String × DayBucket)) (rows : List DailyRow)
    (todayKey nowIso : String) : List (String × DayBucket) :=
  rows.foldl (applyDailyRow todayKey nowIso) daily

/-! ### Keepalive state and the decision loops -/

/-- The persisted keepalive state file
`{lastLaunch, history, pauseUntil?, lastReauthOpen?}`.  A field is `none`
when absent from the JSON object; `history = none` also covers a present
but non-array value (`Array.isArray` fails). -/
structure KeepaliveState where
  lastLaunch : Option ℤ := none
  history : Option (List ℤ) := none
  pauseUntil : Option ℤ := none
  lastReauthOpen : Option ℤ := none
deriving DecidableEq, Repr

/-- Parsed CLI configuration of the part_000 keeper (the fields the tick
reads; numeric flags are modelled as finite numbers). -/
structure KeeperConfig where
  dryRun : Bool := false
  activeMinutes : ℤ := 10
  helloDelaySeconds : ℤ := 5
  cooldownMinutes : ℤ := 10
  reauthCooldownMinutes : ℤ := 60
  pauseMinutes : Option ℤ := none
  resume : Bool := false
deriving DecidableEq, Repr

/-- The limits object `{five_hour, seven_day}` built by
`fetchUsageLimits` (`data.five_hour ?? null`). -/
structure UsageLimits where
  five_hour : Option LimitWindow := none
  seven_day : Option LimitWindow := none
deriving DecidableEq, Repr

/-- The result object of part_001's `fetchUsageLimits` as read by the
tick: `{limits, stale, ageMinutes}` plus the `errorCode` property the
tick and the renderer probe (`undefined`, i.e. `none`, when the producer
never set it). -/
structure LimitsInfo where
  limits : UsageLimits
  stale : Bool := false
  ageMinutes : ℤ := 0
  errorCode : Option String := none
deriving DecidableEq, Repr

/-- Environment of one part_000 `tick` run: every `Date.now()` call in
the tick is modelled as the single instant `now`; the activity probe,
the limits fetch and the two `spawn` resolutions are inputs. -/
structure TickEnv where
  now : ℤ
  lastActivity : Option ℤ := none
  limitsInfo : Option LimitsInfo := none
  appOpenOk : Bool := true
  helloOk : Bool := true
deriving DecidableEq, Repr

/-- Which `return` the part_000 tick exits through. -/
inductive TickBranch where
  | resumed
  | pauseCmd
  | pausedSkip
  | activeSkip
  | noLimitsSkip
  | reauthCooldownSkip
  | reauthOpened
  | reauthOpenFailed
  | limitsNotOkSkip
  | cooldownSkip
  | launchFailedSkip
  | launched
deriving DecidableEq, Repr

/-- Observable effects of one tick: every `writeState` call in order,
and whether `launchClaudeHello` / `launchClaudeApp` were invoked. -/
structure TickOutcome where
  branch : TickBranch
  writes : List KeepaliveState := []
  helloAttempted : Bool := false
  appOpenAttempted : Bool := false
deriving DecidableEq, Repr

/-- `state && typeof state === 'object' ? { ...state } : {}`. -/
def stateOrEmpty : Option KeepaliveState → KeepaliveState
  | some s => s
  | none => {}

/-- `if (state?.pauseUntil && Date.now() < state.pauseUntil)`; a stored
`pauseUntil` of 0 is falsy. -/
def pausedNow (state : Option KeepaliveState) (now : ℤ) : Bool :=
  match state with
  | some s =>
    match s.pauseUntil with
    | some pu => decide (pu ≠ 0) && decide (now < pu)
    | none => false
  | none => false

/-- `if (lastActivity && now - lastActivity <= activeWindowMs)`; a
timestamp of 0 is falsy. -/
def activityRecent (lastActivity : Option ℤ) (now windowMs : ℤ) : Bool :=
  match lastActivity with
  | some t => decide (t ≠ 0) && decide (now - t ≤ windowMs)
  | none => false

/-- `state?.lastReauthOpen && now - state.lastReauthOpen < reauthCooldownMs`. -/
def reauthCooldownActive (state : Option KeepaliveState) (now cooldownMs : ℤ) : Bool :=
  match state with
  | some s =>
    match s.lastReauthOpen with
    | some r => decide (r ≠ 0) && decide (now - r < cooldownMs)
    | none => false
  | none => false

/-- `state?.lastLaunch && now - state.lastLaunch < cooldownMs`. -/
def launchCooldownActive (state : Option KeepaliveState) (now cooldownMs : ℤ) : Bool :=
  match state with
  | some s =>
    match s.lastLaunch with
    | some l => decide (l ≠ 0) && decide (now - l < cooldownMs)
    | none => false
  | none => false

/-- `Array.isArray(state?.history) ? state.history : []` (the stored
history before the `slice(-19)` truncation). -/
def historyOf (state : Option KeepaliveState) : List ℤ :=
  match state with
  | some s => s.history.getD []
  | none => []

/-- JS `array.slice(-n)`: the last at most `n` elements in order. -/
def takeLast (l : List ℤ) (n : ℕ) : List ℤ :=
  l.drop (l.length - n)

/-- The part_000 tick from the paused-check onward (steps 2–7 of the
decision loop, after the resume/pause command branches). -/
def tickMain (cfg : KeeperConfig) (state : Option KeepaliveState) (env : TickEnv) :
    TickOutcome :=
  if pausedNow state env.now then { branch := .pausedSkip }
  else if activityRecent env.lastActivity env.now (cfg.activeMinutes * 60 * 1000) then
    { branch := .activeSkip }
  else
    match env.limitsInfo with
    | none => { branch := .noLimitsSkip }
    | some li =>
      if li.errorCode == some "token_expired" then
        if reauthCooldownActive state env.now (cfg.reauthCooldownMinutes * 60 * 1000) then
          { branch := .reauthCooldownSkip }
        else if env.appOpenOk then
          { branch := .reauthOpened,
            writes := [{ stateOrEmpty state with lastReauthOpen := some env.now }],
            appOpenAttempted := true }
        else { branch := .reauthOpenFailed, appOpenAttempted := true }
      else
        let okFive := (limitOk li.limits.five_hour).truthy
        let okSeven := (limitOk li.limits.seven_day).truthy
        if !okFive || !okSeven || li.stale then { branch := .limitsNotOkSkip }
        else if launchCooldownActive state env.now (cfg.cooldownMinutes * 60 * 1000) then
          { branch := .cooldownSkip }
        else if env.helloOk then
          let history := takeLast (historyOf state) 19 ++ [env.now]
          let base := stateOrEmpty state
          let next := { base with lastLaunch := some env.now, history := some history }
          { branch := .launched, writes := [next], helloAttempted := true }
        else { branch := .launchFailedSkip, helloAttempted := true }

/-- Embeds `tick` from `src/unnamed/part_000`: resume and pause commands
short-circuit, then the skip/launch cascade of `tickMain`. -/
def tick (cfg : KeeperConfig) (state : Option KeepaliveState) (env : TickEnv) :
    TickOutcome :=
  if cfg.resume then
    match state with
    | some s => { branch := .resumed, writes := [{ s with pauseUntil := none }] }
    | none => { branch := .resumed }
  else
    match cfg.pauseMinutes with
    | some p =>
      if 0 < p then
        { branch := .pauseCmd,
          writes := [{ stateOrEmpty state with
                       pauseUntil := some (env.now + p * 60 * 1000) }] }
      else tickMain cfg state env
    | none => tickMain cfg state env

/-- Environment of one `tick` of `scripts/active-session-keeper.js`:
its `fetchUsageLimits` returns the raw limits object or `null`; the
spawn outcome is an input the code never observes (the spawn is
fire-and-forget). -/
structure KeeperTickEnv where
  now : ℤ
  lastActivity : Option ℤ := none
  limits : Option UsageLimits := none
  spawnOk : Bool := true
deriving DecidableEq, Repr

/-- Observable effects of one `scripts/active-session-keeper.js` tick. -/
structure KeeperTickOutcome where
  writes : List KeepaliveState := []
  helloAttempted : Bool := false
deriving DecidableEq, Repr

/-- Embeds `tick` from `scripts/active-session-keeper.js`: activity,
limits and cooldown checks, then a fire-and-forget
`launchClaudeHello` followed unconditionally by
`writeState({ lastLaunch: now, history })`. -/
def keeperTick (cfg : KeeperConfig) (state : Option KeepaliveState)
    (env : KeeperTickEnv) : KeeperTickOutcome :=
  if activityRecent env.lastActivity env.now (cfg.activeMinutes * 60 * 1000) then {}
  else
    match env.limits with
    | none => {}
    | some limits =>
      if !(limitOk limits.five_hour).truthy || !(limitOk limits.seven_day).truthy then {}
      else if launchCooldownActive state env.now (cfg.cooldownMinutes * 60 * 1000) then {}
      else
        let history := takeLast (historyOf state) 19 ++ [env.now]
        { writes := [{ lastLaunch := some env.now, history := some history }],
          helloAttempted := true }

/-! ### Usage-limits client (`fetchUsageLimits` in `src/unnamed/part_001`) -/

/-- A parsed cache file payload: the dedicated limits cache stores
`{timestamp, limits}`, a legacy dashboard cache file stores
`{timestamp, data}`.  `timestamp = none` models an absent or non-numeric
field; `payload = none` at the environment level models a missing or
unparseable file. -/
structure CachePayload where
  timestamp : Option ℤ := none
  limits : Option UsageLimits := none
deriving DecidableEq, Repr

/-- Outcome of the authenticated `fetch` call: a transport failure, or a
response with its `ok` flag, whether its status/body signals an
expired or invalid token, and the parsed `five_hour`/`seven_day`
fields. -/
inductive HttpResult where
  | netError
  | resp (ok : Bool) (tokenExpired : Bool) (five_hour seven_day : Option LimitWindow)
deriving DecidableEq, Repr

/-- Environment of one `fetchUsageLimits` call. -/
structure FetchEnv where
  now : ℤ
  token : Option String := none
  http : HttpResult := .netError
  limitsCacheFile : Option CachePayload := none
  dashboardCacheFiles : List CachePayload := []
deriving DecidableEq, Repr

/-- What a cache-tier read yields. -/
structure CacheRead where
  limits : UsageLimits
  stale : Bool
  ageMinutes : ℤ
deriving DecidableEq, Repr

/-- `Math.round(ageMs / 60000)` (JS rounds half toward positive
infinity, as does `round` on rationals). -/
def ageMinutesOf (ageMs : ℤ) : ℤ :=
  round ((ageMs : ℚ) / 60000)

/-- Embeds `readDashboardCache`: scan the legacy `cache-*.json` payloads,
keep the one with the greatest truthy numeric `timestamp` and non-null
`data`, classify it against `maxAgeMinutes`, and drop a stale entry when
staleness is disallowed. -/
def readDashboardCache (files : List CachePayload) (now maxAgeMinutes : ℤ)
    (allowStale : Bool) : Option CacheRead :=
  let best := files.foldl
    (fun best f =>
      match f.timestamp, f.limits with
      | some ts, some limits =>
        if ts == 0 then best
        else
          match best with
          | none => some (ts, limits)
          | some b => if decide (ts > b.1) then some (ts, limits) else some b
      | _, _ => best)
    (none : Option (ℤ × UsageLimits))
  match best with
  | none => none
  | some (ts, limits) =>
    let ageMs := now - ts
    let stale := decide (ageMs > maxAgeMinutes * 60 * 1000)
    if stale && !allowStale then none
    else some { limits := limits, stale := stale, ageMinutes := ageMinutesOf ageMs }

/-- Embeds `readLimitsCache`: the dedicated limits cache file wins when
it parses to a truthy numeric `timestamp` and non-null `limits`
(otherwise the thrown `invalid cache` error falls through to the
dashboard tier); a stale dedicated entry with staleness disallowed
resolves to `null` without consulting the dashboard tier. -/
def readLimitsCache (env : FetchEnv) (maxAgeMinutes : ℤ) (allowStale : Bool) :
    Option CacheRead :=
  match env.limitsCacheFile with
  | some payload =>
    match payload.timestamp, payload.limits with
    | some ts, some limits =>
      if ts == 0 then
        readDashboardCache env.dashboardCacheFiles env.now maxAgeMinutes allowStale
      else
        let ageMs := env.now - ts
        let stale := decide (ageMs > maxAgeMinutes * 60 * 1000)
        if stale && !allowStale then none
        else some { limits := limits, stale := stale, ageMinutes := ageMinutesOf ageMs }
    | _, _ => readDashboardCache env.dashboardCacheFiles env.now maxAgeMinutes allowStale
  | none => readDashboardCache env.dashboardCacheFiles env.now maxAgeMinutes allowStale

/-- Result object of part_001's `fetchUsageLimits`, including the
`errorCode` property its callers probe (every construction site in the
source is a plain object literal without it, i.e. `none`). -/
structure FetchResult where
  limits : UsageLimits
  stale : Bool
  ageMinutes : ℤ
  errorCode : Option String := none
deriving DecidableEq, Repr

/-- Options object of `fetchUsageLimits`; `none` models an absent (or
wrongly-typed, hence defaulted) property. -/
structure FetchOptions where
  allowStale : Option Bool := none
  allowCache : Option Bool := none
  maxAgeMinutes : Option ℤ := none
deriving DecidableEq, Repr

/-- Embeds `fetchUsageLimits` from `src/unnamed/part_001`: no credential
or any fetch failure (transport error or non-ok response, an expired
token included) falls back to the cache tiers; a successful response is
returned fresh.  No path attaches an `errorCode`. -/
def fetchUsageLimits (opts : FetchOptions) (env : FetchEnv) : Option FetchResult :=
  let allowStale := opts.allowStale.getD true
  let allowCache := opts.allowCache.getD true
  let maxAgeMinutes := opts.maxAgeMinutes.getD 180
  let cacheFallback : Option FetchResult :=
    if !allowCache then none
    else
      match readLimitsCache env maxAgeMinutes allowStale with
      | some c =>
        some { limits := c.limits, stale := c.stale, ageMinutes := c.ageMinutes }
      | none => none
  match env.token with
  | none => cacheFallback
  | some _ =>
    match env.http with
    | .netError => cacheFallback
    | .resp ok _ five seven =>
      if !ok then cacheFallback
      else some { limits := { five_hour := five, seven_day := seven },
                  stale := false, ageMinutes := 0 }

/-! ### Activity reader (`readLastTranscriptTimestamp` in
`active-session-core.js` / `part_001`)

The file content is a list of (single-byte) characters, so byte offsets
and character offsets coincide; `JSON.parse` composed with the
timestamp-field probe and `new Date(...).getTime()` is an external
platform function and enters as the parameter `p` (`none` models a parse
failure, a missing/falsy timestamp field, or a `NaN` date). -/

/-- JS `String.prototype.trim` on one line. -/
def trimChars (l : List Char) : List Char :=
  ((l.dropWhile Char.isWhitespace).reverse.dropWhile Char.isWhitespace).reverse

/-- The tail window the reader actually reads:
`readSize = min(size, tailBytes)`, bytes `[size - readSize, size)`. -/
def tailWindow (content : List Char) (tailBytes : ℕ) : List Char :=
  content.drop (content.length - min content.length tailBytes)

/-- `text.split('\n').map(l => l.trim()).filter(Boolean)` applied to the
tail window. -/
def windowLines (content : List Char) (tailBytes : ℕ) : List (List Char) :=
  (((tailWindow content tailBytes).splitOn '\n').map trimChars).filter
    (fun l => !l.isEmpty)

/-- The backwards scan `for (let i = lines.length - 1; i >= 0; i--)`:
the first line from the end whose parse yields a timestamp wins. -/
def findFromEnd (p : List Char → Option ℤ) : List (List Char) → Option ℤ
  | [] => none
  | l :: ls =>
    match findFromEnd p ls with
    | some t => some t
    | none => p l

/-- Embeds `readLastTranscriptTimestamp` for an existing readable file:
scan the trimmed non-empty lines of the tail window from the end and
return the first extracted timestamp, else fall back to the file's
`mtimeMs`. -/
def readLastTranscriptTimestamp (p : List Char → Option ℤ) (content : List Char)
    (mtimeMs : ℤ) (tailBytes : ℕ) : ℤ :=
  match findFromEnd p (windowLines content tailBytes) with
  | some t => t
  | none => mtimeMs

/-- All trimmed non-empty lines of the whole file. -/
def fileLines (content : List Char) : List (List Char) :=
  ((content.splitOn '\n').map trimChars).filter (fun l => !l.isEmpty)

/-- Maximum of a list of integers, `none` on the empty list. -/
def listMax : List ℤ → Option ℤ
  | [] => none
  | t :: ts =>
    match listMax ts with
    | none => some t
    | some m => some (max t m)

/-- The file's actual latest event time: the greatest timestamp any line
of the whole file parses to. -/
def latestEventTime (p : List Char → Option ℤ) (content : List Char) : Option ℤ :=
  listMax ((fileLines content).filterMap p)

/-- Models the platform line parse (`JSON.parse` + timestamp probe +
`new Date(...).getTime()`) on the concrete transcript lines used below:
the valid JSON line `{"timestamp":1000}` parses to the timestamp 1000;
every other line used in the examples is not valid JSON and yields
nothing. -/
def sampleParse (l : List Char) : Option ℤ :=
  if l = "\x7b\"timestamp\":1000\x7d".data then some 1000 else none

/-! ### Theorems -/

/-- C5: `limitOk` is truthy exactly when its argument is a non-null
object whose `utilization` field is a finite number strictly below 100;
in particular `limitOk {utilization: 99.9}` is true while
`limitOk {utilization: 100}`, `limitOk {utilization: NaN}` and
`limitOk(null)` are all falsy. -/
theorem limitOk_truthy_iff :
    (∀ l : Option LimitWindow,
      (limitOk l).truthy = true ↔
        ∃ w : LimitWindow, l = some w ∧
          ∃ q : ℚ, w.utilization = some (.finite q) ∧ q < 100) ∧
    (limitOk (some ⟨some (.finite (999 / 10))⟩)).truthy = true ∧
    (limitOk (some ⟨some (.finite 100)⟩)).truthy = false ∧
    (limitOk (some ⟨some .nan⟩)).truthy = false ∧
    (limitOk none).truthy = false := by
  refine ⟨?_,
    by simp [limitOk, JsNumber.isFinite, JsNumber.ltNum, JsBoolish.truthy]; norm_num,
    by simp [limitOk, JsNumber.isFinite, JsNumber.ltNum, JsBoolish.truthy],
    by simp [limitOk, JsNumber.isFinite, JsBoolish.truthy],
    by simp [limitOk, JsBoolish.truthy]⟩
  intro l
  cases l with
  | none => simp [limitOk, JsBoolish.truthy]
  | some w =>
    cases hw : w.utilization with
    | none => simp [limitOk, hw, JsBoolish.truthy]
    | some u =>
      cases u with
      | nan => simp [limitOk, hw, JsBoolish.truthy, JsNumber.isFinite]
      | inf => simp [limitOk, hw, JsBoolish.truthy, JsNumber.isFinite]
      | negInf => simp [limitOk, hw, JsBoolish.truthy, JsNumber.isFinite]
      | finite q =>
        simp [limitOk, hw, JsBoolish.truthy, JsNumber.isFinite, JsNumber.ltNum]

/-- C10: `clampDelta` returns 0 when the current total is not a finite
number, the full current value when the previous total is not a finite
number or exceeds the current one (counter reset), and otherwise the
difference — hence it is never negative when the current total is
non-negative. -/
theorem clampDelta_clauses_and_nonneg :
    (∀ p, clampDelta none p = 0 ∧ clampDelta (some .nan) p = 0 ∧
          clampDelta (some .inf) p = 0 ∧ clampDelta (some .negInf) p = 0) ∧
    (∀ c : ℚ, clampDelta (some (.finite c)) none = c ∧
              clampDelta (some (.finite c)) (some .nan) = c ∧
              clampDelta (some (.finite c)) (some .inf) = c ∧
              clampDelta (some (.finite c)) (some .negInf) = c) ∧
    (∀ c q : ℚ, c < q → clampDelta (some (.finite c)) (some (.finite q)) = c) ∧
    (∀ c : ℚ, 0 ≤ c → ∀ p, 0 ≤ clampDelta (some (.finite c)) p) := by
  refine ⟨?_, ?_, ?_, ?_⟩
  · intro p
    cases p with
    | none => exact ⟨rfl, rfl, rfl, rfl⟩
    | some u => cases u <;> exact ⟨rfl, rfl, rfl, rfl⟩
  · intro c
    exact ⟨rfl, rfl, rfl, rfl⟩
  · intro c q h
    simp only [clampDelta, if_pos (by linarith : c - q < 0)]
  · intro c hc p
    cases p with
    | none => simpa [clampDelta] using hc
    | some u =>
      cases u with
      | finite q =>
        simp only [clampDelta]
        split
        · exact hc
        · linarith [not_lt.mp (by assumption : ¬c - q < 0)]
      | nan => simpa [clampDelta] using hc
      | inf => simpa [clampDelta] using hc
      | negInf => simpa [clampDelta] using hc

/-- Witness for C10 at concrete inputs: a counter reset (current 5,
previous 7) yields the full current value, and a normal delta is
non-negative. -/
theorem clampDelta_clauses_and_nonneg_witness :
    clampDelta (some (.finite 5)) (some (.finite 7)) = 5 ∧
    0 ≤ clampDelta (some (.finite 5)) (some (.finite 2)) :=
  ⟨clampDelta_clauses_and_nonneg.2.2.1 5 7 (by norm_num),
   clampDelta_clauses_and_nonneg.2.2.2 5 (by norm_num) (some (.finite 2))⟩

/-- Characterization of the `computeCost` fold: the `missing` list
collects exactly the visited model names with no pricing resolution, and
the total is the sum of the per-model costs of the resolvable entries. -/
theorem computeCost_foldl_spec (envMode : Option String) (pricing : Option Pricing) :
    ∀ (l : List (String × TokenDelta)) (acc : CostResult),
      (l.foldl (computeCostStep envMode pricing) acc).missing =
        acc.missing ++ (l.filter (fun e => (resolvePricing e.1 pricing).isNone)).map (·.1) ∧
      (l.foldl (computeCostStep envMode pricing) acc).total =
        acc.total + (l.filterMap (fun e =>
          (resolvePricing e.1 pricing).map (fun r => modelCost envMode pricing r e.2))).sum := by
  intro l
  induction l with
  | nil => intro acc; simp
  | cons e rest ih =>
    intro acc
    simp only [List.foldl_cons, List.filter_cons, List.filterMap_cons]
    cases hre : resolvePricing e.1 pricing with
    | none =>
      have hstep : computeCostStep envMode pricing acc e =
          { acc with missing := acc.missing ++ [e.1] } := by
        simp [computeCostStep, hre]
      rw [hstep]
      obtain ⟨h1, h2⟩ := ih { acc with missing := acc.missing ++ [e.1] }
      refine ⟨?_, ?_⟩
      · rw [h1]
        simp [hre, List.append_assoc]
      · rw [h2]
        simp [hre]
    | some rates =>
      have hstep : computeCostStep envMode pricing acc e =
          { total := acc.total + modelCost envMode pricing rates e.2,
            perModel := acc.perModel ++ [(e.1, modelCost envMode pricing rates e.2)],
            missing := acc.missing } := by
        simp [computeCostStep, hre]
      rw [hstep]
      obtain ⟨h1, h2⟩ := ih { total := acc.total + modelCost envMode pricing rates e.2, perModel := acc.perModel ++ [(e.1, modelCost envMode pricing rates e.2)], missing := acc.missing }
      refine ⟨?_, ?_⟩
      · rw [h1]
        simp [hre]
      · rw [h2]
        simp [hre]
        ring

/-- C6: a model name with no exact pricing entry resolves to the first
wildcard entry whose starred-out key is one of its prefixes
(`claude-opus-4-5-20250101` hits `claude-opus-4*`); a name matching
neither (`claude-haiku-9`) lands in `missingPricing` and contributes no
cost term — in general the `missing` list holds exactly the unresolvable
visited names, and the total sums only the resolvable entries. -/
theorem resolvePricing_wildcard_and_computeCost_missing :
    resolvePricing "claude-opus-4-5-20250101"
        (some { models := [("claude-opus-4*", { input := some 15 })] }) =
      some { input := some 15 } ∧
    (computeCost none [("claude-haiku-9", { input := 1000000 })]
        (some { models := [("claude-opus-4*", { input := some 15 })] })) =
      { total := 0, perModel := [], missing := ["claude-haiku-9"] } ∧
    (∀ envMode deltaByModel pricing m,
      m ∈ (computeCost envMode deltaByModel pricing).missing ↔
        ∃ d, (m, d) ∈ deltaByModel ∧ resolvePricing m pricing = none) ∧
    (∀ envMode deltaByModel pricing,
      (computeCost envMode deltaByModel pricing).total =
        (deltaByModel.filterMap (fun e =>
          (resolvePricing e.1 pricing).map
            (fun r => modelCost envMode pricing r e.2))).sum) := by
  refine ⟨by decide, by decide, ?_, ?_⟩
  · intro envMode deltaByModel pricing m
    have h := (computeCost_foldl_spec envMode pricing deltaByModel {}).1
    rw [computeCost, h]
    simp only [CostResult.missing, List.nil_append, List.mem_map, List.mem_filter,
      Option.isNone_iff_eq_none]
    constructor
    · rintro ⟨e, ⟨hmem, hnone⟩, hfst⟩
      refine ⟨e.2, ?_, by rwa [← hfst]⟩
      rw [← hfst, Prod.mk.eta]
      exact hmem
    · rintro ⟨d, hmem, hnone⟩
      exact ⟨(m, d), ⟨hmem, hnone⟩, rfl⟩
  · intro envMode deltaByModel pricing
    have h := (computeCost_foldl_spec envMode pricing deltaByModel {}).2
    rw [computeCost, h]
    simp [CostResult.total]

/-- Property read over a concatenation of maps: the left map wins. -/
theorem lookupKey_append {α : Type} (m₁ m₂ : List (String × α)) (d : String) :
    lookupKey (m₁ ++ m₂) d =
      match lookupKey m₁ d with
      | some x => some x
      | none => lookupKey m₂ d := by
  induction m₁ with
  | nil => simp [lookupKey]
  | cons e rest ih =>
    by_cases hed : e.1 = d
    · simp [lookupKey, hed]
    · simp [lookupKey, hed, ih]

/-- Property read after the in-place replacement pass of `setKey`. -/
theorem lookupKey_map_set {α : Type} (m : List (String × α)) (k : String) (v : α)
    (d : String) :
    lookupKey (m.map (fun e => if e.1 == k then (k, v) else e)) d =
      if d = k then (if (lookupKey m k).isSome then some v else none)
      else lookupKey m d := by
  induction m with
  | nil => simp [lookupKey]
  | cons e rest ih =>
    by_cases hek : e.1 = k
    · by_cases hdk : d = k
      · subst hdk
        simp [lookupKey, hek]
      · have hkd : ¬k = d := fun h => hdk h.symm
        simp only [lookupKey, List.map_cons]
        simp [lookupKey, hek, hkd, hdk]
        simpa [hdk] using ih
    · by_cases hed : e.1 = d
      · have hdk : ¬d = k := fun h => hek (by rw [hed, h])
        simp [lookupKey, hek, hed, hdk]
      · simpa [lookupKey, hek, hed] using ih

/-- JS property assignment followed by a property read: the written key
reads back the written value, every other key is untouched. -/
theorem lookupKey_setKey {α : Type} (m : List (String × α)) (k : String) (v : α)
    (d : String) :
    lookupKey (setKey m k v) d = if d = k then some v else lookupKey m d := by
  unfold setKey
  by_cases hfind : (lookupKey m k).isSome
  · rw [if_pos hfind, lookupKey_map_set, if_pos hfind]
  · rw [if_neg hfind, lookupKey_append]
    have hnone : lookupKey m k = none := by
      cases h : lookupKey m k with
      | none => rfl
      | some x => rw [h] at hfind; simp at hfind
    by_cases hdk : d = k
    · subst hdk
      simp [hnone, lookupKey]
    · have : ¬(k = d) := fun h => hdk h.symm
      simp only [lookupKey, beq_iff_eq, this, if_neg this, if_neg hdk]
      cases lookupKey m d <;> rfl

/-- The JS string comparison is irreflexive. -/
theorem charListLt_self (l : List Char) : charListLt l l = false := by
  induction l with
  | nil => rfl
  | cons a as ih => simp [charListLt, ih]

/-- No date key is strictly before itself. -/
theorem jsStrLt_self (s : String) : jsStrLt s s = false :=
  charListLt_self s.data

/-- C3: re-running the ccusage daily merge cannot change a bucket that
already exists for a past day (date key strictly below today's), whatever
new rows claim for that day; a row list ending with a row for the still
open current day overwrites today's bucket with that row's cost. -/
theorem updateUsageHistory_past_immutable_current_overwritten :
    (∀ (rows : List DailyRow) (daily : List (String × DayBucket)) (today iso d : String),
      jsStrLt d today = true → (lookupKey daily d).isSome →
      lookupKey (applyCcusageDailyRows daily rows today iso) d = lookupKey daily d) ∧
    (∀ (daily : List (String × DayBucket)) (rs : List DailyRow) (r : DailyRow)
        (today iso : String),
      r.date = today →
      ∃ ms, lookupKey (applyCcusageDailyRows daily (rs ++ [r]) today iso) today =
        some { costUSD := some r.costUSD, source := some "ccusage",
               updatedAt := some iso, models := ms }) := by
  constructor
  · intro rows
    induction rows with
    | nil => intro daily today iso d _ _; rfl
    | cons row rest ih =>
      intro daily today iso d hd hsome
      have hcons : applyCcusageDailyRows daily (row :: rest) today iso =
          applyCcusageDailyRows (applyDailyRow today iso daily row) rest today iso := rfl
      rw [hcons]
      by_cases hrowd : row.date = d
      · have hguard : (jsStrLt row.date today && (lookupKey daily row.date).isSome)
            = true := by
          rw [hrowd, hsome, hd]
          rfl
        have hskip : applyDailyRow today iso daily row = daily := by
          simp only [applyDailyRow, hguard, if_true]
        rw [hskip]
        exact ih daily today iso d hd hsome
      · have hlook : lookupKey (applyDailyRow today iso daily row) d =
            lookupKey daily d := by
          by_cases hg :
              (jsStrLt row.date today && (lookupKey daily row.date).isSome) = true
          · simp only [applyDailyRow, hg, if_true]
          · simp only [applyDailyRow, if_neg hg]
            rw [lookupKey_setKey, if_neg (fun h => hrowd h.symm)]
        have hsome' : (lookupKey (applyDailyRow today iso daily row) d).isSome := by
          rw [hlook]; exact hsome
        rw [ih (applyDailyRow today iso daily row) today iso d hd hsome', hlook]
  · intro daily rs r today iso hr
    have happ : applyCcusageDailyRows daily (rs ++ [r]) today iso =
        applyDailyRow today iso (applyCcusageDailyRows daily rs today iso) r := by
      simp [applyCcusageDailyRows, List.foldl_append]
    rw [happ]
    have hpast : jsStrLt r.date today = false := by
      rw [hr]; exact jsStrLt_self today
    simp only [applyDailyRow, hpast, Bool.false_and, Bool.false_eq_true, if_false]
    refine ⟨((lookupKey (applyCcusageDailyRows daily rs today iso) r.date).getD {}).models,
      ?_⟩
    rw [lookupKey_setKey, hr, if_pos rfl]

/-- On a limits result with a failing window or staleness, the main
cascade of the tick never reaches the companion launch. -/
theorem tickMain_no_hello_of_bad_limits (cfg : KeeperConfig)
    (state : Option KeepaliveState) (env : TickEnv) (li : LimitsInfo)
    (hli : env.limitsInfo = some li)
    (hbad : (limitOk li.limits.five_hour).truthy = false ∨
            (limitOk li.limits.seven_day).truthy = false ∨ li.stale = true) :
    (tickMain cfg state env).helloAttempted = false := by
  have hguard : (!(limitOk li.limits.five_hour).truthy ||
      !(limitOk li.limits.seven_day).truthy || li.stale) = true := by
    rcases hbad with h | h | h <;> simp [h]
  unfold tickMain
  rw [hli]
  simp [hguard, apply_ite TickOutcome.helloAttempted]

/-- C4: on any tick whose limits result has a window that is not ok
(utilization at/over 100, non-finite or absent) or is marked stale, the
part_000 decision loop exits before the launch step — it never invokes
`launchClaudeHello` (the parsed config has no force flag: `--force` is
silently ignored by `parseArgs`, so no override can reach the launch). -/
theorem tick_no_launch_when_limits_not_ok (cfg : KeeperConfig)
    (state : Option KeepaliveState) (env : TickEnv) (li : LimitsInfo)
    (hli : env.limitsInfo = some li)
    (hbad : (limitOk li.limits.five_hour).truthy = false ∨
            (limitOk li.limits.seven_day).truthy = false ∨ li.stale = true) :
    (tick cfg state env).helloAttempted = false := by
  unfold tick
  split
  · split <;> rfl
  · split
    · split
      · rfl
      · exact tickMain_no_hello_of_bad_limits cfg state env li hli hbad
    · exact tickMain_no_hello_of_bad_limits cfg state env li hli hbad

/-- Witness for C4 at a concrete input: a stale cached limits result
with both windows at 50% utilization still blocks the launch. -/
theorem tick_no_launch_when_limits_not_ok_witness :
    (tick {} none
      { now := 1000000,
        limitsInfo := some { limits := { five_hour := some ⟨some (.finite 50)⟩,
                                         seven_day := some ⟨some (.finite 50)⟩ },
                             stale := true, ageMinutes := 400 } }).helloAttempted
      = false :=
  tick_no_launch_when_limits_not_ok {} none
    { now := 1000000,
      limitsInfo := some { limits := { five_hour := some ⟨some (.finite 50)⟩,
                                       seven_day := some ⟨some (.finite 50)⟩ },
                           stale := true, ageMinutes := 400 } }
    { limits := { five_hour := some ⟨some (.finite 50)⟩,
                  seven_day := some ⟨some (.finite 50)⟩ },
      stale := true, ageMinutes := 400 }
    rfl (Or.inr (Or.inr rfl))

/-- C9: a part_000 tick that exits through any of the skip branches —
already paused, recent activity, limits unavailable, a limit window not
ok or limits stale, or launch cooldown still active — calls `writeState`
not at all, leaving the persisted keepalive state untouched. -/
theorem tick_skip_branches_no_writes (cfg : KeeperConfig)
    (state : Option KeepaliveState) (env : TickEnv) :
    ((tick cfg state env).branch = .pausedSkip ∨
     (tick cfg state env).branch = .activeSkip ∨
     (tick cfg state env).branch = .noLimitsSkip ∨
     (tick cfg state env).branch = .limitsNotOkSkip ∨
     (tick cfg state env).branch = .cooldownSkip) →
    (tick cfg state env).writes = [] := by
  unfold tick tickMain
  (repeat' split) <;>
    simp [apply_ite TickOutcome.branch, apply_ite TickOutcome.writes] <;>
    (repeat' split) <;> simp_all

/-- Witness for C9 at a concrete input: a tick during an active pause
writes nothing. -/
theorem tick_skip_branches_no_writes_witness :
    (tick {} (some { pauseUntil := some 2000 }) { now := 1000 }).writes = [] :=
  tick_skip_branches_no_writes {} (some { pauseUntil := some 2000 }) { now := 1000 }
    (Or.inl (by decide))

/-- C2 (amended part): in the part_000 decision loop a tick whose
companion spawn fails performs no write that touches `lastLaunch` or
`history` — every write of such a tick (resume, pause command, re-auth
stamp) carries the previous values of both fields. -/
theorem tick_preserves_launch_state_on_spawn_failure (cfg : KeeperConfig)
    (state : Option KeepaliveState) (env : TickEnv)
    (hfail : env.helloOk = false) :
    ∀ w ∈ (tick cfg state env).writes,
      w.lastLaunch = (stateOrEmpty state).lastLaunch ∧
      w.history = (stateOrEmpty state).history := by
  unfold tick tickMain
  (repeat' split) <;> simp_all [stateOrEmpty, apply_ite TickOutcome.writes]

/-- Witness for C2's amended theorem at a concrete input: with a failing
spawn, prior state `{lastLaunch: 1, history: [1]}`, fresh ok limits and
no cooldown, every write of the tick keeps `lastLaunch = 1` and
`history = [1]`. -/
theorem tick_preserves_launch_state_on_spawn_failure_witness :
    ((tick {} (some { lastLaunch := some 1, history := some [1] })
      { now := 10000000,
        limitsInfo := some { limits := { five_hour := some ⟨some (.finite 50)⟩,
                                         seven_day := some ⟨some (.finite 50)⟩ } },
        helloOk := false }).writes.all
      (fun w => w.lastLaunch == some 1 && w.history == some [1])) = true := by
  have h := tick_preserves_launch_state_on_spawn_failure {}
    (some { lastLaunch := some 1, history := some [1] })
    { now := 10000000,
      limitsInfo := some { limits := { five_hour := some ⟨some (.finite 50)⟩,
                                       seven_day := some ⟨some (.finite 50)⟩ } },
      helloOk := false }
    rfl
  rw [List.all_eq_true]
  intro w hw
  obtain ⟨h1, h2⟩ := h w hw
  simp [h1, h2, stateOrEmpty]

/-- `slice(-n)` keeps at most `n` elements. -/
theorem takeLast_length_le (l : List ℤ) (n : ℕ) : (takeLast l n).length ≤ n := by
  simp only [takeLast, List.length_drop]
  omega

/-- C7: a part_000 tick that reaches the launch step writes exactly one
state, whose history is the previous history truncated to its last 19
entries (oldest dropped in insertion order) with the new launch
timestamp appended — so the persisted history never exceeds 20 entries. -/
theorem tick_launched_history_bounded (cfg : KeeperConfig)
    (state : Option KeepaliveState) (env : TickEnv)
    (h : (tick cfg state env).branch = .launched) :
    ∃ hl, (tick cfg state env).writes =
        [{ stateOrEmpty state with lastLaunch := some env.now, history := some hl }] ∧
      hl = takeLast (historyOf state) 19 ++ [env.now] ∧ hl.length ≤ 20 := by
  refine ⟨takeLast (historyOf state) 19 ++ [env.now], ?_, rfl, ?_⟩
  · revert h
    unfold tick tickMain
    (repeat' split) <;>
      simp [apply_ite TickOutcome.branch, apply_ite TickOutcome.writes] <;>
      (repeat' split) <;> simp_all
  · have := takeLast_length_le (historyOf state) 19
    simp only [List.length_append, List.length_cons, List.length_nil]
    omega

/-- Witness for C7 at a concrete input: launching on top of a 20-entry
history drops the oldest entry and appends the new timestamp, keeping
the bound of 20. -/
theorem tick_launched_history_bounded_witness :
    (tick {} (some { history := some [1, 2, 3, 4, 5, 6, 7, 8, 9, 10, 11, 12,
        13, 14, 15, 16, 17, 18, 19, 20] })
      { now := 10000000,
        limitsInfo := some { limits := { five_hour := some ⟨some (.finite 50)⟩,
                                         seven_day := some ⟨some (.finite 50)⟩ } } }).writes =
      [{ lastLaunch := some 10000000,
         history := some [2, 3, 4, 5, 6, 7, 8, 9, 10, 11, 12, 13, 14, 15, 16, 17,
           18, 19, 20, 10000000] }] := by
  obtain ⟨hl, h1, h2, h3⟩ := tick_launched_history_bounded {}
    (some { history := some [1, 2, 3, 4, 5, 6, 7, 8, 9, 10, 11, 12, 13, 14, 15, 16,
      17, 18, 19, 20] })
    { now := 10000000,
      limitsInfo := some { limits := { five_hour := some ⟨some (.finite 50)⟩,
                                       seven_day := some ⟨some (.finite 50)⟩ } } }
    (by decide)
  subst h2
  exact h1

/-- Witness for C3 at concrete inputs: a closed 2024-01-01 bucket
costing 5 survives a rerun claiming 99 for that day, and a trailing row
for the open day 2024-01-02 lands in its bucket with the new cost. -/
theorem updateUsageHistory_past_immutable_current_overwritten_witness :
    lookupKey (applyCcusageDailyRows [("2024-01-01", { costUSD := some 5 })]
        [⟨"2024-01-01", 99⟩] "2024-01-02" "T") "2024-01-01" =
      lookupKey [("2024-01-01", { costUSD := some 5 })] "2024-01-01" ∧
    lookupKey (applyCcusageDailyRows [("2024-01-01", { costUSD := some 5 })]
        ([] ++ [⟨"2024-01-02", 7⟩]) "2024-01-02" "T") "2024-01-02" =
      some { costUSD := some 7, source := some "ccusage", updatedAt := some "T",
             models := none } := by
  refine ⟨updateUsageHistory_past_immutable_current_overwritten.1
    [⟨"2024-01-01", 99⟩] [("2024-01-01", { costUSD := some 5 })]
    "2024-01-02" "T" "2024-01-01" (by decide) (by decide), ?_⟩
  obtain ⟨ms, h⟩ := updateUsageHistory_past_immutable_current_overwritten.2
    [("2024-01-01", { costUSD := some 5 })] [] ⟨"2024-01-02", 7⟩ "2024-01-02" "T" rfl
  have hms : ms = none := by
    have hev := h.symm.trans (by decide :
      lookupKey (applyCcusageDailyRows [("2024-01-01", { costUSD := some 5 })]
          ([] ++ [⟨"2024-01-02", 7⟩]) "2024-01-02" "T") "2024-01-02" =
        some { costUSD := some 7, source := some "ccusage", updatedAt := some "T",
               models := none })
    exact congrArg (fun b => (b.getD {}).models) hev
  rw [hms] at h
  exact h

/-- C2 (counterexample): the `scripts/active-session-keeper.js` tick
spawns the companion fire-and-forget and then writes
`{lastLaunch, history}` unconditionally — on a tick whose spawn fails
(`spawnOk = false`, unobservable to the code) the persisted state is
still overwritten with a new `lastLaunch` and history entry. -/
theorem keeperTick_writes_despite_spawn_failure :
    (keeperTick {} (some { lastLaunch := some 1, history := some [1] })
      { now := 10000000,
        limits := some { five_hour := some ⟨some (.finite 50)⟩,
                         seven_day := some ⟨some (.finite 50)⟩ },
        spawnOk := false }).writes =
      [{ lastLaunch := some 10000000, history := some [1, 10000000] }] ∧
    (keeperTick {} (some { lastLaunch := some 1, history := some [1] })
      { now := 10000000,
        limits := some { five_hour := some ⟨some (.finite 50)⟩,
                         seven_day := some ⟨some (.finite 50)⟩ },
        spawnOk := false }).writes ≠ [] := by
  constructor
  · decide
  · decide

/-- The cached limits used in the expired-token scenario below. -/
def cachedLimitsFixture : UsageLimits where
  five_hour := some ⟨some (.finite 10)⟩
  seven_day := some ⟨some (.finite 20)⟩

/-- A `fetchUsageLimits` environment in which a credential is present,
the live response is not ok and signals an expired/invalid token
(`tokenExpired = true`), and the dedicated limits cache holds a fresh
entry written 1 000 000 ms earlier. -/
def tokenExpiredFetchEnv : FetchEnv where
  now := 10000000
  token := some "tok"
  http := .resp false true none none
  limitsCacheFile := some { timestamp := some 9000000, limits := some cachedLimitsFixture }

/-- C1 (code evaluation at the failing input): with a credential
present, a live response that is not ok and signals an expired token,
and a warm limits cache, part_001's `fetchUsageLimits` silently falls
back to the cache and returns a result whose `errorCode` is absent — so
the `errorCode === 'token_expired'` test in the part_000 tick (and in
the renderer) can never fire on its results. -/
theorem fetchUsageLimits_expired_token_lacks_errorCode :
    fetchUsageLimits { allowStale := some true, allowCache := some true, maxAgeMinutes := some 360 }
        tokenExpiredFetchEnv =
      some { limits := cachedLimitsFixture, stale := false,
             ageMinutes := ageMinutesOf 1000000, errorCode := none } ∧
    ((fetchUsageLimits { allowStale := some true, allowCache := some true, maxAgeMinutes := some 360 }
        tokenExpiredFetchEnv).map
      (fun r => r.errorCode == some "token_expired")) = some false :=
  ⟨rfl, rfl⟩

/-- A timestamp found by the backwards scan is the parse of one of the
scanned lines. -/
theorem findFromEnd_mem (p : List Char → Option ℤ) :
    ∀ (ls : List (List Char)) (t : ℤ), findFromEnd p ls = some t →
      ∃ l ∈ ls, p l = some t := by
  intro ls
  induction ls with
  | nil => intro t h; simp [findFromEnd] at h
  | cons l rest ih =>
    intro t h
    simp only [findFromEnd] at h
    cases hf : findFromEnd p rest with
    | some t' =>
      rw [hf] at h
      have ht : t' = t := by simpa using h
      obtain ⟨l', hl', hp'⟩ := ih t' hf
      exact ⟨l', List.mem_cons_of_mem l hl', by rw [hp', ht]⟩
    | none =>
      rw [hf] at h
      exact ⟨l, List.mem_cons_self l rest, by simpa using h⟩

/-- Every member of an integer list is bounded by its maximum. -/
theorem listMax_le : ∀ (l : List ℤ) (t : ℤ), t ∈ l →
    ∃ mx, listMax l = some mx ∧ t ≤ mx := by
  intro l
  induction l with
  | nil => intro t h; simp at h
  | cons a as ih =>
    intro t h
    rcases List.mem_cons.mp h with rfl | hmem
    · cases has : listMax as with
      | none => exact ⟨t, by simp [listMax, has], le_refl t⟩
      | some m => exact ⟨max t m, by simp [listMax, has], le_max_left t m⟩
    · obtain ⟨mx, hmx, hle⟩ := ih t hmem
      cases has : listMax as with
      | none => rw [has] at hmx; cases hmx
      | some m =>
        rw [has] at hmx
        have hm : m = mx := Option.some.inj hmx
        subst hm
        exact ⟨max a m, by simp [listMax, has], le_trans hle (le_max_right a m)⟩

/-- C8 (counterexample): on a file whose single event (timestamp 1000)
lies before the tail window and whose window holds only blank lines, the
reader falls back to the file's mtime (5000), which exceeds the file's
actual latest event time — the returned timestamp is not bounded by the
latest event time. -/
theorem readLastTranscriptTimestamp_mtime_exceeds_latest_event :
    readLastTranscriptTimestamp sampleParse
        "\x7b\"timestamp\":1000\x7d\n\n\n\n".data 5000 3 = 5000 ∧
    latestEventTime sampleParse "\x7b\"timestamp\":1000\x7d\n\n\n\n".data = some 1000 ∧
    ¬((5000 : ℤ) ≤ 1000) := by
  refine ⟨by decide, by decide, by decide⟩

/-- C8 (amended): the reader touches only the last
`min(size, tailBytes)` bytes — that slice is a suffix of the file no
longer than the window, and the result is a function of that slice plus
the mtime alone; the returned value is either the mtime fallback or the
parsed timestamp of one of the window's lines, and any timestamp parsed
from an intact line of the file is bounded by the file's latest event
time. -/
theorem readLastTranscriptTimestamp_window_spec :
    (∀ (content : List Char) (tailBytes : ℕ),
      ∃ pre, content = pre ++ tailWindow content tailBytes ∧
        (tailWindow content tailBytes).length ≤ tailBytes) ∧
    (∀ (p : List Char → Option ℤ) (c₁ c₂ : List Char) (mtimeMs : ℤ) (tailBytes : ℕ),
      tailWindow c₁ tailBytes = tailWindow c₂ tailBytes →
      readLastTranscriptTimestamp p c₁ mtimeMs tailBytes =
        readLastTranscriptTimestamp p c₂ mtimeMs tailBytes) ∧
    (∀ (p : List Char → Option ℤ) (content : List Char) (mtimeMs : ℤ) (tailBytes : ℕ),
      readLastTranscriptTimestamp p content mtimeMs tailBytes = mtimeMs ∨
      ∃ l ∈ windowLines content tailBytes,
        p l = some (readLastTranscriptTimestamp p content mtimeMs tailBytes)) ∧
    (∀ (p : List Char → Option ℤ) (content l : List Char) (t : ℤ),
      l ∈ fileLines content → p l = some t →
      ∃ mx, latestEventTime p content = some mx ∧ t ≤ mx) := by
  refine ⟨?_, ?_, ?_, ?_⟩
  · intro content tailBytes
    refine ⟨content.take (content.length - min content.length tailBytes), ?_, ?_⟩
    · rw [tailWindow, List.take_append_drop]
    · simp only [tailWindow, List.length_drop]
      omega
  · intro p c₁ c₂ mtimeMs tailBytes h
    simp only [readLastTranscriptTimestamp, windowLines, h]
  · intro p content mtimeMs tailBytes
    cases hf : findFromEnd p (windowLines content tailBytes) with
    | none => left; simp [readLastTranscriptTimestamp, hf]
    | some t =>
      right
      obtain ⟨l, hl, hp⟩ := findFromEnd_mem p _ t hf
      exact ⟨l, hl, by simp [readLastTranscriptTimestamp, hf, hp]⟩
  · intro p content l t hl hp
    have hmem : t ∈ (fileLines content).filterMap p :=
      List.mem_filterMap.mpr ⟨l, hl, hp⟩
    exact listMax_le _ t hmem

/-- Witness for C8's amended theorem at concrete inputs: two files with
the same one-byte tail give the same result, and the timestamp of the
intact event line of the counterexample file is bounded by that file's
latest event time. -/
theorem readLastTranscriptTimestamp_window_spec_witness :
    readLastTranscriptTimestamp sampleParse "a\nb".data 7 1 =
      readLastTranscriptTimestamp sampleParse "c\nb".data 7 1 ∧
    latestEventTime sampleParse "\x7b\"timestamp\":1000\x7d\n\n\n\n".data =
      some 1000 ∧ (1000 : ℤ) ≤ 1000 := by
  refine ⟨readLastTranscriptTimestamp_window_spec.2.1 sampleParse
    "a\nb".data "c\nb".data 7 1 (by decide), ?_, le_refl 1000⟩
  obtain ⟨mx, hmx, hle⟩ := readLastTranscriptTimestamp_window_spec.2.2.2 sampleParse
    "\x7b\"timestamp\":1000\x7d\n\n\n\n".data "\x7b\"timestamp\":1000\x7d".data 1000
    (by decide) (by decide)
  have hmx1000 : mx = 1000 := by
    have hev := hmx.symm.trans (by decide :
      latestEventTime sampleParse "\x7b\"timestamp\":1000\x7d\n\n\n\n".data = some 1000)
    exact Option.some.inj hev
  rw [hmx1000] at hmx
  exact hmx

end ClaudeKeepalive
